import Mathlib

/-!
Shallow embedding of the box-office scraping and aggregation core of this
repository, together with theorems settling the specification claims about
it.  The embedded code lives in:

* `scripts/data_collection/collect_year_batch.py`
  (`YearBatchCollector._parse_money` / `_parse_percent` / `_parse_int`,
  `YearBatchCollector.scrape_daily_data`, `YearBatchCollector.collect_year_batch`,
  `aggregate_movie_features`);
* `scripts/enrichment/enrich_with_daily_bom.py`
  (`BOMDailyCollector` with identical parsers and scraper,
  `BOMDailyCollector.scrape_date_range`, `aggregate_daily_features`);
* `scripts/data_collection/collect_all_years.py` and
  `scripts/enrichment/scrape_individual_movies.py`
  (the `combine_first` dataset-merge loops).

Machine floats of the Python code are modelled by exact rationals: the
parsers below return `Option ℚ`.  Dates are modelled as integers counting
days, which matches the code's use of `pandas` datetime subtraction
(`.dt.days`).
-/

namespace MLProj

/-- Python whitespace as recognised by `str.strip()`: space, tab, newline,
carriage return, vertical tab, form feed (codepoints 32, 9, 10, 13, 11, 12). -/
def isPySpace (c : Char) : Bool :=
  c.toNat = 32 || c.toNat = 9 || c.toNat = 10 || c.toNat = 13 ||
    c.toNat = 11 || c.toNat = 12

/-- ASCII decimal digit test (codepoints 48 to 57). -/
def isDigitC (c : Char) : Bool := 48 ≤ c.toNat && c.toNat ≤ 57

/-- Python `str.strip()`: drop leading and trailing whitespace. -/
def pyStrip (l : List Char) : List Char :=
  ((l.dropWhile isPySpace).reverse.dropWhile isPySpace).reverse

/-- Numeric value of an ASCII digit character. -/
def digitVal (c : Char) : ℕ := c.toNat - 48

/-- Value of a big-endian ASCII digit string. -/
def digitsVal (l : List Char) : ℕ :=
  l.foldl (fun a c => 10 * a + digitVal c) 0

/-- Value contributed by the digits after a decimal point. -/
def fracVal (l : List Char) : ℚ := (digitsVal l : ℚ) / (10 : ℚ) ^ l.length

/-- CPython `float(text)` on an unsigned finite decimal literal:
an integer part and/or a fractional part, at least one digit in total.
Exponent notation, `inf`/`nan` words and digit-group underscores are
outside this model; no string appearing in the scraped money and percent
columns uses them. -/
def floatParseUnsigned (t : List Char) : Option ℚ :=
  match t.dropWhile isDigitC with
  | [] =>
      if (t.takeWhile isDigitC).isEmpty then Option.none
      else some ((digitsVal (t.takeWhile isDigitC) : ℕ) : ℚ)
  | '.' :: fr =>
      if fr.all isDigitC && !((t.takeWhile isDigitC).isEmpty && fr.isEmpty) then
        some (((digitsVal (t.takeWhile isDigitC) : ℕ) : ℚ) + fracVal fr)
      else Option.none
  | _ => Option.none

/-- Sign handling of CPython `float(text)`. -/
def floatParseCore (t : List Char) : Option ℚ :=
  match t with
  | [] => floatParseUnsigned []
  | c :: rest =>
      if c = '-' then (floatParseUnsigned rest).map (fun q => -q)
      else if c = '+' then floatParseUnsigned rest
      else floatParseUnsigned (c :: rest)

/-- CPython `float(text)`: the argument may carry surrounding whitespace,
then an optional sign and a finite decimal literal.  Returns `none` where
the Python call raises `ValueError` (the callers catch it and return
`None`). -/
def floatParse (t : List Char) : Option ℚ := floatParseCore (pyStrip t)

/-- Text of a money cell after `text.strip().replace('$', '').replace(',', '')`
as done by `_parse_money` in both collectors. -/
def moneyClean (s : String) : List Char :=
  (pyStrip s.data).filter (fun c => decide (c ≠ '$') && decide (c ≠ ','))

/-- Embedding of `_parse_money` (identical in
`collect_year_batch.YearBatchCollector` and
`enrich_with_daily_bom.BOMDailyCollector`): strip, drop dollar signs and
commas, return `None` for empty text or a bare dash, otherwise `float(text)`
with any exception mapped to `None`. -/
def parse_money (s : String) : Option ℚ :=
  if (moneyClean s).isEmpty || moneyClean s == ['-'] then Option.none
  else floatParse (moneyClean s)

/-- Text of a percent cell after `text.strip().replace('%', '').replace('+', '')`
as done by `_parse_percent` in both collectors. -/
def percentClean (s : String) : List Char :=
  (pyStrip s.data).filter (fun c => decide (c ≠ '%') && decide (c ≠ '+'))

/-- Embedding of `_parse_percent` (identical in both collectors): strip,
drop percent and plus signs, return `None` for empty text, a bare dash or
the string `n/a`, otherwise `float(text)` with exceptions mapped to `None`. -/
def parse_percent (s : String) : Option ℚ :=
  if (percentClean s).isEmpty || percentClean s == ['-'] ||
      percentClean s == ['n', '/', 'a'] then Option.none
  else floatParse (percentClean s)

/-- Sign handling of CPython `int(text)` restricted to decimal literals. -/
def intParseCore : List Char → Option ℤ
  | '-' :: ds => if !ds.isEmpty && ds.all isDigitC then
      some (-(digitsVal ds : ℤ)) else Option.none
  | '+' :: ds => if !ds.isEmpty && ds.all isDigitC then
      some ((digitsVal ds : ℤ)) else Option.none
  | ds => if !ds.isEmpty && ds.all isDigitC then
      some ((digitsVal ds : ℤ)) else Option.none

/-- Embedding of `_parse_int` (identical in both collectors): strip, drop
commas, return `None` for empty text or a bare dash, otherwise `int(text)`
with exceptions mapped to `None`. -/
def parse_int (s : String) : Option ℤ :=
  if ((pyStrip s.data).filter (fun c => decide (c ≠ ','))).isEmpty ||
      (pyStrip s.data).filter (fun c => decide (c ≠ ',')) == ['-'] then Option.none
  else intParseCore (pyStrip ((pyStrip s.data).filter (fun c => decide (c ≠ ','))))

/-- One row of the scraped daily listing table, as built by
`scrape_daily_data` in both collectors: one `(movie, calendar date)`
observation.  Dates are day numbers; money and percent cells are already
parsed (`None` becomes `Option.none`). -/
structure DailyRec where
  date : ℤ
  rank : Option ℤ
  release : String
  movie_url : Option String
  daily_gross : Option ℚ
  yd_change_pct : Option ℚ
  lw_change_pct : Option ℚ
  theaters : Option ℤ
  per_theater_avg : Option ℚ
  to_date_gross : Option ℚ
  days_in_release : Option ℤ
deriving DecidableEq, Repr

/-- One row of the main movie dataset as consumed by
`aggregate_movie_features`: catalog id, title, release date and the
optional Box Office Mojo URL (`Option.none` models a missing or NaN
`bom_url` cell). -/
structure Movie where
  tmdb_id : ℤ
  title : String
  release_date : ℤ
  bom_url : Option String
deriving DecidableEq, Repr

/-- Case-sensitive containment of `needle` at the head of `hay`. -/
def leadsWith : List Char → List Char → Bool
  | [], _ => true
  | _ :: _, [] => false
  | a :: as, b :: bs => (a == b) && leadsWith as bs

/-- Containment of `needle` anywhere in `hay` (Python `needle in hay`). -/
def hasSub (needle : List Char) : List Char → Bool
  | [] => needle.isEmpty
  | c :: rest => leadsWith needle (c :: rest) || hasSub needle rest

/-- Pandas `hay_series.str.contains(pat, case=False, regex=False)` on one
cell: lowercase both strings and test substring containment. -/
def strContainsCI (hay pat : String) : Bool :=
  hasSub (pat.data.map Char.toLower) (hay.data.map Char.toLower)

/-- Matching step of `aggregate_movie_features`
(`collect_year_batch.py` line 219): records whose `release` cell contains
the first 20 characters of the target title, case-insensitively
(`batch_df['release'].str.contains(title[:20], case=False, na=False,
regex=False)`). -/
def matchedBatch (batch : List DailyRec) (title : String) : List DailyRec :=
  batch.filter (fun r => strContainsCI r.release (String.mk (title.data.take 20)))

/-- Title-fallback matching step of `aggregate_daily_features`
(`enrich_with_daily_bom.py` line 181): records whose `release` cell
contains the full target title, case-insensitively. -/
def titleMatchedFull (data : List DailyRec) (title : String) : List DailyRec :=
  data.filter (fun r => strContainsCI r.release title)

/-- URL matching step of `aggregate_daily_features`
(`enrich_with_daily_bom.py` line 177): records whose `movie_url` cell
equals the movie's known URL (a null cell never equals a string). -/
def urlMatched (data : List DailyRec) (u : String) : List DailyRec :=
  data.filter (fun r => r.movie_url == some u)

/-- Insertion step of sorting daily records by date. -/
def insertByDate (r : DailyRec) : List DailyRec → List DailyRec
  | [] => [r]
  | x :: xs => if r.date ≤ x.date then r :: x :: xs else x :: insertByDate r xs

/-- Pandas `sort_values('date')` on a record list (the claims depend only
on membership and on the dates being weakly ordered, both of which any
`sort_values` kind delivers). -/
def sortByDate (l : List DailyRec) : List DailyRec := l.foldr insertByDate []

/-- Non-null values of a column over a record list (pandas `skipna`). -/
def optVals (f : DailyRec → Option α) (l : List DailyRec) : List α :=
  l.filterMap f

/-- Pandas `Series.mean()`: `NaN` (here `none`) on an empty column. -/
def meanQ (xs : List ℚ) : Option ℚ :=
  if xs.isEmpty then Option.none else some (xs.sum / (xs.length : ℚ))

/-- Window predicate of `aggregate_movie_features`
(`collect_year_batch.py` line 232): `days_since_release.between(0, 6)`,
both bounds inclusive. -/
def windowB (rel : ℤ) (r : DailyRec) : Bool :=
  decide (0 ≤ r.date - rel) && decide (r.date - rel ≤ 6)

/-- First-week record set of `aggregate_movie_features`: the matched
records, sorted by date, restricted to days 0 to 6 since release. -/
def firstWeekOf (batch : List DailyRec) (m : Movie) : List DailyRec :=
  (sortByDate (matchedBatch batch m.title)).filter (windowB m.release_date)

/-- Feature row produced by `aggregate_movie_features` for one movie. -/
structure FeatureRow where
  tmdb_id : ℤ
  title : String
  opening_theaters : Option ℤ
  opening_gross : Option ℚ
  opening_per_theater : Option ℚ
  first_week_gross : ℚ
  first_week_avg_daily : Option ℚ
  first_week_days_tracked : ℕ
  avg_yd_change : Option ℚ
  avg_lw_change : Option ℚ
  max_yd_gain : Option ℚ
  max_yd_drop : Option ℚ
  peak_theaters_week1 : Option ℤ
  min_theaters_week1 : Option ℤ
deriving DecidableEq, Repr

/-- Body of the per-movie loop of `aggregate_movie_features`
(`collect_year_batch.py` lines 210-263): skip movies with a null
`bom_url`; match by truncated title; skip when nothing matched; window to
days 0-6 since release; skip when the window is empty; otherwise reduce to
a feature row (`first_week_gross` is a pandas `sum`, which is 0 when every
windowed gross is null; means and extrema of an all-null column are null). -/
def featureRowForMovie (batch : List DailyRec) (m : Movie) : Option FeatureRow :=
  match m.bom_url with
  | Option.none => Option.none
  | some _ =>
    if (matchedBatch batch m.title).isEmpty then Option.none
    else if (firstWeekOf batch m).isEmpty then Option.none
    else some {
      tmdb_id := m.tmdb_id
      title := m.title
      opening_theaters := (firstWeekOf batch m).head?.bind (fun r => r.theaters)
      opening_gross := (firstWeekOf batch m).head?.bind (fun r => r.daily_gross)
      opening_per_theater :=
        (firstWeekOf batch m).head?.bind (fun r => r.per_theater_avg)
      first_week_gross := (optVals (fun r => r.daily_gross) (firstWeekOf batch m)).sum
      first_week_avg_daily :=
        meanQ (optVals (fun r => r.daily_gross) (firstWeekOf batch m))
      first_week_days_tracked := (firstWeekOf batch m).length
      avg_yd_change := meanQ (optVals (fun r => r.yd_change_pct) (firstWeekOf batch m))
      avg_lw_change := meanQ (optVals (fun r => r.lw_change_pct) (firstWeekOf batch m))
      max_yd_gain := (optVals (fun r => r.yd_change_pct) (firstWeekOf batch m)).max?
      max_yd_drop := (optVals (fun r => r.yd_change_pct) (firstWeekOf batch m)).min?
      peak_theaters_week1 := (optVals (fun r => r.theaters) (firstWeekOf batch m)).max?
      min_theaters_week1 := (optVals (fun r => r.theaters) (firstWeekOf batch m)).min? }

/-- Embedding of `aggregate_movie_features` (`collect_year_batch.py`):
iterate over the main dataset, appending one feature row per movie that
survives matching and windowing. -/
def aggregate_movie_features (batch : List DailyRec) (movies : List Movie) :
    List FeatureRow :=
  movies.filterMap (featureRowForMovie batch)

/-- Value passed as the `movie_url` argument of `aggregate_daily_features`:
the Python `None` object, a pandas NaN float (the content of a null
`bom_url` cell), or a string. -/
inductive PyArg where
  | none : PyArg
  | nan : PyArg
  | str : String → PyArg
deriving DecidableEq, Repr

/-- Python truthiness of a `movie_url` value: `None` is falsy, a NaN float
is truthy, a string is truthy when nonempty. -/
def pyTruthy : PyArg → Bool
  | PyArg.none => false
  | PyArg.nan => true
  | PyArg.str s => decide (s ≠ "")

/-- Pandas `pd.notna` on a `movie_url` value: false on `None` and NaN. -/
def pyNotna : PyArg → Bool
  | PyArg.none => false
  | PyArg.nan => false
  | PyArg.str _ => true

/-- String content of a `movie_url` argument; only consulted on the branch
where `pyTruthy` and `pyNotna` both hold, which forces the `str` case. -/
def argStr : PyArg → String
  | PyArg.str s => s
  | _ => ""

/-- Exception escaping `aggregate_daily_features`. -/
inductive PyErr where
  | unboundLocal : PyErr
deriving DecidableEq, Repr

/-- Matching step of `aggregate_daily_features`
(`enrich_with_daily_bom.py` lines 175-181).  The local `movie_data` is
assigned inside `if movie_url and pd.notna(movie_url):` (modelled by the
`Option`-valued `movieData0`); the fallback `if movie_url is None or
len(movie_data) == 0:` short-circuits, so when `movie_url` is neither
`None` nor an assigned-branch value, reading `len(movie_data)` raises
`UnboundLocalError`. -/
def aggDailyMovieData (data : List DailyRec) (title : String)
    (movie_url : PyArg) : Except PyErr (List DailyRec) :=
  let movieData0 : Option (List DailyRec) :=
    if pyTruthy movie_url && pyNotna movie_url then
      some (urlMatched data (argStr movie_url))
    else Option.none
  if movie_url == PyArg.none then
    Except.ok (titleMatchedFull data title)
  else
    match movieData0 with
    | Option.none => Except.error PyErr.unboundLocal
    | some md =>
        if md.isEmpty then Except.ok (titleMatchedFull data title)
        else Except.ok md

/-- Feature dictionary produced by `aggregate_daily_features`.  The three
standard-deviation entries of the Python dict are omitted: a sample
standard deviation is an irrational square root, outside the rational
model, and no claim mentions them. -/
structure DailyFeatures where
  daily_opening_theaters : Option ℤ
  daily_peak_theaters : Option ℤ
  daily_avg_theaters : Option ℚ
  daily_min_theaters : Option ℤ
  daily_opening_day_gross : Option ℚ
  daily_peak_gross : Option ℚ
  daily_avg_gross : Option ℚ
  daily_opening_per_theater : Option ℚ
  daily_peak_per_theater : Option ℚ
  daily_avg_per_theater : Option ℚ
  daily_avg_yd_change : Option ℚ
  daily_avg_lw_change : Option ℚ
  daily_max_yd_gain : Option ℚ
  daily_max_yd_drop : Option ℚ
  daily_opening_3day_gross : Option ℚ
  daily_opening_3day_per_theater : Option ℚ
  daily_week1_avg_gross : Option ℚ
  daily_week2_avg_gross : Option ℚ
  daily_week1_avg_theaters : Option ℚ
  daily_days_tracked : ℕ
  daily_max_days_in_release : Option ℤ
  daily_final_gross : Option ℚ
  daily_week2_week1_ratio : Option ℚ
  daily_theater_expansion_ratio : Option ℚ
  daily_opening_to_total_ratio : Option ℚ
  daily_per_theater_decline_rate : Option ℚ
deriving DecidableEq, Repr

/-- Python truthiness of a nullable float feature: `None` and `0.0` are
falsy (the derived-feature guards in `aggregate_daily_features` use plain
`and` chains, so a zero value disables them exactly like a null). -/
def optTruthyQ : Option ℚ → Bool
  | some q => decide (q ≠ 0)
  | Option.none => false

/-- Python truthiness of a nullable integer feature. -/
def optTruthyZ : Option ℤ → Bool
  | some z => decide (z ≠ 0)
  | Option.none => false

/-- Reduction step of `aggregate_daily_features`
(`enrich_with_daily_bom.py` lines 186-253) over the matched records sorted
by date.  Pandas semantics: means, extrema and last-value lookups of an
all-null column are null; `iloc[:k]` guards require the stated record
count; the four derived entries are guarded by Python truthiness plus a
positivity test on the denominator-adjacent value, exactly as written. -/
def computeDailyFeatures (md : List DailyRec) : DailyFeatures :=
  let w1g := if md.length ≥ 7 then
      meanQ (optVals (fun r => r.daily_gross) (md.take 7)) else Option.none
  let w2g := if md.length ≥ 14 then
      meanQ (optVals (fun r => r.daily_gross) ((md.drop 7).take 7)) else Option.none
  let o3g := if md.length ≥ 3 then
      some ((optVals (fun r => r.daily_gross) (md.take 3)).sum) else Option.none
  let peakTh := (optVals (fun r => r.theaters) md).max?
  let openTh := md.head?.bind (fun r => r.theaters)
  let openPT := md.head?.bind (fun r => r.per_theater_avg)
  let avgPT := meanQ (optVals (fun r => r.per_theater_avg) md)
  let finG := (md.getLast?).bind (fun r => r.to_date_gross)
  { daily_opening_theaters := openTh
    daily_peak_theaters := peakTh
    daily_avg_theaters :=
      meanQ ((optVals (fun r => r.theaters) md).map (fun z => (z : ℚ)))
    daily_min_theaters := (optVals (fun r => r.theaters) md).min?
    daily_opening_day_gross := md.head?.bind (fun r => r.daily_gross)
    daily_peak_gross := (optVals (fun r => r.daily_gross) md).max?
    daily_avg_gross := meanQ (optVals (fun r => r.daily_gross) md)
    daily_opening_per_theater := openPT
    daily_peak_per_theater := (optVals (fun r => r.per_theater_avg) md).max?
    daily_avg_per_theater := avgPT
    daily_avg_yd_change := meanQ (optVals (fun r => r.yd_change_pct) md)
    daily_avg_lw_change := meanQ (optVals (fun r => r.lw_change_pct) md)
    daily_max_yd_gain := (optVals (fun r => r.yd_change_pct) md).max?
    daily_max_yd_drop := (optVals (fun r => r.yd_change_pct) md).min?
    daily_opening_3day_gross := o3g
    daily_opening_3day_per_theater := if md.length ≥ 3 then
      meanQ (optVals (fun r => r.per_theater_avg) (md.take 3)) else Option.none
    daily_week1_avg_gross := w1g
    daily_week2_avg_gross := w2g
    daily_week1_avg_theaters := if md.length ≥ 7 then
      meanQ ((optVals (fun r => r.theaters) (md.take 7)).map (fun z => (z : ℚ)))
      else Option.none
    daily_days_tracked := md.length
    daily_max_days_in_release := (optVals (fun r => r.days_in_release) md).max?
    daily_final_gross := finG
    daily_week2_week1_ratio :=
      match w1g, w2g with
      | some a, some b =>
          if a ≠ 0 ∧ b ≠ 0 ∧ 0 < b then some (b / a) else Option.none
      | _, _ => Option.none
    daily_theater_expansion_ratio :=
      match peakTh, openTh with
      | some p, some o =>
          if p ≠ 0 ∧ o ≠ 0 ∧ 0 < o then some ((p : ℚ) / (o : ℚ)) else Option.none
      | _, _ => Option.none
    daily_opening_to_total_ratio :=
      match o3g, finG with
      | some a, some b =>
          if a ≠ 0 ∧ b ≠ 0 ∧ 0 < b then some (a / b) else Option.none
      | _, _ => Option.none
    daily_per_theater_decline_rate :=
      match openPT, avgPT with
      | some o, some a =>
          if o ≠ 0 ∧ a ≠ 0 ∧ 0 < o then some ((a - o) / o) else Option.none
      | _, _ => Option.none }

/-- Embedding of `aggregate_daily_features` (`enrich_with_daily_bom.py`
lines 163-255): match by URL with title fallback, return `None` when
nothing matched, otherwise the feature dictionary over the matched records
sorted by date.  The `Except` layer carries the `UnboundLocalError` that
escapes when `movie_url` is a non-`None` missing value. -/
def aggregate_daily_features (data : List DailyRec) (title : String)
    (movie_url : PyArg) : Except PyErr (Option DailyFeatures) :=
  match aggDailyMovieData data title movie_url with
  | Except.error e => Except.error e
  | Except.ok md =>
      if md.isEmpty then Except.ok Option.none
      else Except.ok (some (computeDailyFeatures (sortByDate md)))

/-- Provider base URL (`self.base_url` in both collectors). -/
def base_url : String := "https://www.boxofficemojo.com"

/-- Cell texts of one `<tr>` of the daily listing table with at least nine
`<td>` columns, as read by `scrape_daily_data`: the optional link target of
the third column, and the optional tenth column. -/
structure RowCells where
  rankText : String
  releaseText : String
  linkHref : Option String
  grossText : String
  ydText : String
  lwText : String
  theatersText : String
  perTheaterText : String
  toDateText : String
  daysText : Option String
deriving DecidableEq, Repr

/-- One `<tr>` of the scraped table: either fewer than nine `<td>` columns
(skipped by `scrape_daily_data`) or a full cell row. -/
inductive TableRow where
  | short : TableRow
  | cells : RowCells → TableRow
deriving DecidableEq, Repr

/-- Conversion of one table row into a `DailyRec`
(`collect_year_batch.py` lines 153-171, identically
`enrich_with_daily_bom.py` lines 50-72): rows with too few columns are
dropped, link targets are prefixed with the base URL, and the numeric
cells go through the three parsers. -/
def rowToRec (date : ℤ) : TableRow → Option DailyRec
  | TableRow.short => Option.none
  | TableRow.cells c => some {
      date := date
      rank := parse_int c.rankText
      release := String.mk (pyStrip c.releaseText.data)
      movie_url := c.linkHref.map (fun h => base_url ++ h)
      daily_gross := parse_money c.grossText
      yd_change_pct := parse_percent c.ydText
      lw_change_pct := parse_percent c.lwText
      theaters := parse_int c.theatersText
      per_theater_avg := parse_money c.perTheaterText
      to_date_gross := parse_money c.toDateText
      days_in_release := c.daysText.bind (fun t => parse_int t) }

/-- Outcome of the `requests.get` call of `scrape_daily_data`: the request
itself raised (network error, timeout), or a response arrived whose status
makes `raise_for_status()` raise (an HTTP 4xx/5xx error status), carrying
the parse of its HTML (`None` when `soup.find('table')` finds no table). -/
inductive FetchResult where
  | exc : FetchResult
  | resp : Bool → Option (List TableRow) → FetchResult
deriving DecidableEq, Repr

/-- Embedding of `scrape_daily_data` (`collect_year_batch.py` lines
140-175, identically `enrich_with_daily_bom.py` lines 25-80): the whole
body sits in `try/except` returning `None`, so a raised request, an error
status, a missing table and a table with no usable rows all come back as
`Option.none` rather than an exception. -/
def scrape_daily_data (date : ℤ) (f : FetchResult) : Option (List DailyRec) :=
  match f with
  | FetchResult.exc => Option.none
  | FetchResult.resp statusRaises tbl =>
      if statusRaises then Option.none
      else
        match tbl with
        | Option.none => Option.none
        | some trs =>
            if (trs.filterMap (rowToRec date)).isEmpty then Option.none
            else some (trs.filterMap (rowToRec date))

/-- Observable event of a collection run: one per-date fetch (the
`scrape_daily_data` call plus its politeness sleep), or one write of the
accumulated batch to the output file. -/
inductive Ev where
  | fetch : ℤ → Ev
  | save : List DailyRec → Ev
deriving DecidableEq, Repr

/-- Event test used to state checkpointing facts. -/
def isSaveEv : Ev → Bool
  | Ev.save _ => true
  | Ev.fetch _ => false

/-- The date loop shared by `collect_year_batch`
(`collect_year_batch.py` lines 50-63) and `scrape_date_range`
(`enrich_with_daily_bom.py` lines 105-120): fetch every date in order,
appending each non-null result to the in-memory accumulator; nothing is
persisted inside the loop.  `oracle` abstracts the network as the result
of `scrape_daily_data` per date. -/
def collectLoop (oracle : ℤ → Option (List DailyRec)) :
    List ℤ → List (List DailyRec) × List Ev
  | [] => ([], [])
  | d :: ds =>
      let rest := collectLoop oracle ds
      match oracle d with
      | some df => (df :: rest.1, Ev.fetch d :: rest.2)
      | Option.none => (rest.1, Ev.fetch d :: rest.2)

/-- Embedding of `YearBatchCollector.collect_year_batch` after date
selection (`collect_year_batch.py` lines 50-80): run the date loop, and
only after it completes write the concatenated batch to the output file
(no write happens at all when every date came back empty). -/
def collectYearBatchTrace (oracle : ℤ → Option (List DailyRec))
    (dates : List ℤ) : List Ev × Option (List DailyRec) :=
  if (collectLoop oracle dates).1.isEmpty then
    ((collectLoop oracle dates).2, Option.none)
  else
    ((collectLoop oracle dates).2 ++ [Ev.save (collectLoop oracle dates).1.flatten],
      some (collectLoop oracle dates).1.flatten)

/-- Consecutive day numbers from `start` to `endD` inclusive. -/
def rangeDates (start endD : ℤ) : List ℤ :=
  (List.range (endD + 1 - start).toNat).map (fun i => start + (i : ℤ))

/-- Dates attempted by `scrape_date_range` for a start date, end date and
optional `max_days` cap; a cap of `0` is falsy in Python, so it disables
the `days_scraped >= max_days` break instead of stopping immediately. -/
def selectedDates (start endD : ℤ) (maxDays : Option ℕ) : List ℤ :=
  match maxDays with
  | some m => if m = 0 then rangeDates start endD else (rangeDates start endD).take m
  | Option.none => rangeDates start endD

/-- Embedding of `BOMDailyCollector.scrape_date_range`
(`enrich_with_daily_bom.py` lines 82-130): run the date loop over the
selected dates and return the concatenation of the non-null results, or
`None` when there are none.  The function persists nothing itself — its
trace holds only fetch events. -/
def scrape_date_range (oracle : ℤ → Option (List DailyRec))
    (start endD : ℤ) (maxDays : Option ℕ) : List Ev × Option (List DailyRec) :=
  ((collectLoop oracle (selectedDates start endD maxDays)).2,
    if (collectLoop oracle (selectedDates start endD maxDays)).1.isEmpty then
      Option.none
    else some (collectLoop oracle (selectedDates start endD maxDays)).1.flatten)

/-- Pandas `new.combine_first(old)` on one cell: the new value where
non-null, otherwise the old value. -/
def combine_first (newV oldV : Option ℚ) : Option ℚ :=
  match newV with
  | some v => some v
  | Option.none => oldV

/-- The column-update loop of the dataset merge
(`collect_all_years.py` lines 134-140, identically
`scrape_individual_movies.py` lines 239-243):
`df[col] = df[col + '_new'].combine_first(df.get(col, pd.Series()))`
applied to each feature column in turn.  A table maps a column name and a
row key (the movie identifier) to a nullable value; `newTbl` holds the
left-joined `_new` columns, null where the join found no row. -/
def applyUpdates (newTbl : String → String → Option ℚ) :
    List String → (String → String → Option ℚ) → String → String → Option ℚ
  | [], tbl => tbl
  | c :: cs, tbl =>
      applyUpdates newTbl cs
        (fun c' k => if c' = c then combine_first (newTbl c' k) (tbl c' k)
         else tbl c' k)

/-- ASCII digit character of a value below ten. -/
def digitToChar (d : ℕ) : Char := Char.ofNat (48 + d)

/-- Big-endian decimal digit string of a natural number. -/
def natDigitsChars (n : ℕ) : List Char :=
  if n = 0 then ['0'] else ((Nat.digits 10 n).map digitToChar).reverse

/-- Comma separators inserted after every third character; applied to the
reversed digit string this realises the thousands grouping of
`$1,234,567`-style rendering. -/
def commaGroup : List Char → List Char
  | a :: b :: c :: d :: rest => a :: b :: c :: ',' :: commaGroup (d :: rest)
  | l => l

/-- Modelled from the spec: the repository has no money formatter (it never
renders parsed values back to `$1,234,567` form), but the round-trip
property of section 8 of the spec needs one.  Renders a natural number
with a dollar sign and thousands separators. -/
def formatMoney (n : ℕ) : String :=
  String.mk ('$' :: (commaGroup (natDigitsChars n).reverse).reverse)

/-- Convenience builder for concrete daily records: the claims only
exercise the date, title, URL, gross and theater columns, so the remaining
ones are null. -/
def mkRec (date : ℤ) (release : String) (url : Option String)
    (gross : Option ℚ) (th : Option ℤ) : DailyRec :=
  { date := date, rank := Option.none, release := release, movie_url := url,
    daily_gross := gross, yd_change_pct := Option.none,
    lw_change_pct := Option.none, theaters := th,
    per_theater_avg := Option.none, to_date_gross := Option.none,
    days_in_release := Option.none }

theorem dropWhile_eq_self_of_all {p : Char → Bool} {l : List Char}
    (h : ∀ c ∈ l, p c = false) : l.dropWhile p = l := by
  cases l with
  | nil => rfl
  | cons a as => simp [List.dropWhile, h a (by simp)]

theorem pyStrip_noSpace {l : List Char}
    (h : ∀ c ∈ l, isPySpace c = false) : pyStrip l = l := by
  unfold pyStrip
  rw [dropWhile_eq_self_of_all h]
  rw [dropWhile_eq_self_of_all (by intro c hc; exact h c (List.mem_reverse.mp hc))]
  exact List.reverse_reverse l

theorem all_takeWhile_eq {p : Char → Bool} {l : List Char}
    (h : l.all p = true) : l.takeWhile p = l := by
  induction l with
  | nil => rfl
  | cons a as ih =>
      simp only [List.all_cons, Bool.and_eq_true] at h
      simp [List.takeWhile, h.1, ih h.2]

theorem all_dropWhile_eq {p : Char → Bool} {l : List Char}
    (h : l.all p = true) : l.dropWhile p = [] := by
  induction l with
  | nil => rfl
  | cons a as ih =>
      simp only [List.all_cons, Bool.and_eq_true] at h
      simp [List.dropWhile, h.1, ih h.2]

theorem mem_insertByDate {a r : DailyRec} {l : List DailyRec} :
    a ∈ insertByDate r l ↔ a = r ∨ a ∈ l := by
  induction l with
  | nil => simp [insertByDate]
  | cons x xs ih =>
      by_cases h : r.date ≤ x.date
      · simp [insertByDate, h]
      · simp [insertByDate, h, ih]
        tauto

theorem mem_sortByDate {a : DailyRec} {l : List DailyRec} :
    a ∈ sortByDate l ↔ a ∈ l := by
  induction l with
  | nil => simp [sortByDate]
  | cons x xs ih =>
      show a ∈ insertByDate x (sortByDate xs) ↔ _
      rw [mem_insertByDate]
      simp [ih]

/-- Claim C1: for every monetary input string in the set containing the
empty string, a dash, an em dash and the text `N/A` (and any string whose
cleaned text `float()` rejects), `_parse_money` returns `None`, never
zero; `_parse_percent` obeys the same null policy on a dash, `n/a` and the
empty string. -/
theorem c1_parse_null_policy :
    (parse_money "" = Option.none ∧ parse_money "-" = Option.none ∧
      parse_money "—" = Option.none ∧ parse_money "N/A" = Option.none)
    ∧ (∀ s : String, floatParse (moneyClean s) = Option.none →
        parse_money s = Option.none)
    ∧ (parse_percent "-" = Option.none ∧ parse_percent "n/a" = Option.none ∧
      parse_percent "" = Option.none) := by
  refine ⟨⟨by decide, by decide, by decide, by decide⟩, ?_,
    by decide, by decide, by decide⟩
  intro s h
  unfold parse_money
  split
  · rfl
  · exact h

/-- Witness for the unparseable-string conjunct of C1 at the concrete
input `7 Up` (cleaned text rejected by `float()`). -/
theorem c1_witness :
    floatParse (moneyClean "7 Up") = Option.none ∧
      parse_money "7 Up" = Option.none :=
  ⟨by decide, c1_parse_null_policy.2.1 "7 Up" (by decide)⟩

theorem digitsVal_append {l : List Char} {c : Char} :
    digitsVal (l ++ [c]) = 10 * digitsVal l + digitVal c := by
  simp [digitsVal, List.foldl_append]

theorem digitVal_digitToChar {d : ℕ} (h : d < 10) :
    digitVal (digitToChar d) = d := by
  interval_cases d <;> decide

theorem isDigitC_digitToChar {d : ℕ} (h : d < 10) :
    isDigitC (digitToChar d) = true := by
  interval_cases d <;> decide

theorem isDigitC_bounds {c : Char} (h : isDigitC c = true) :
    48 ≤ c.toNat ∧ c.toNat ≤ 57 := by
  simpa [isDigitC] using h

theorem isDigitC_not_space {c : Char} (h : isDigitC c = true) :
    isPySpace c = false := by
  have hb := isDigitC_bounds h
  simp only [isPySpace, Bool.or_eq_false_iff, decide_eq_false_iff_not]
  omega

theorem isDigitC_ne_sep {c : Char} (h : isDigitC c = true) :
    c ≠ '$' ∧ c ≠ ',' := by
  constructor <;> intro he <;> rw [he] at h <;> exact absurd h (by decide)

theorem digitsVal_rev_map {L : List ℕ} (h : ∀ d ∈ L, d < 10) :
    digitsVal ((L.map digitToChar).reverse) = Nat.ofDigits 10 L := by
  induction L with
  | nil => simp [digitsVal]
  | cons d L ih =>
      simp only [List.map_cons, List.reverse_cons]
      rw [digitsVal_append, ih (fun x hx => h x (List.mem_cons_of_mem _ hx)),
        digitVal_digitToChar (h d (List.mem_cons_self _ _)), Nat.ofDigits_cons]
      ring

theorem digitsVal_natDigitsChars (n : ℕ) :
    digitsVal (natDigitsChars n) = n := by
  by_cases h : n = 0
  · subst h; decide
  · unfold natDigitsChars
    rw [if_neg h, digitsVal_rev_map (fun d hd => Nat.digits_lt_base (by norm_num) hd),
      Nat.ofDigits_digits]

theorem natDigitsChars_all (n : ℕ) :
    (natDigitsChars n).all isDigitC = true := by
  by_cases h : n = 0
  · subst h; decide
  · unfold natDigitsChars
    rw [if_neg h, List.all_eq_true]
    intro c hc
    rw [List.mem_reverse, List.mem_map] at hc
    obtain ⟨d, hd, rfl⟩ := hc
    exact isDigitC_digitToChar (Nat.digits_lt_base (by norm_num) hd)

theorem natDigitsChars_ne_nil (n : ℕ) : natDigitsChars n ≠ [] := by
  by_cases h : n = 0
  · subst h; decide
  · unfold natDigitsChars
    rw [if_neg h]
    simp [Nat.digits_ne_nil_iff_ne_zero.mpr h]

theorem commaGroup_filter {p : Char → Bool} (hp : p ',' = false) :
    ∀ l : List Char, (∀ c ∈ l, p c = true) → (commaGroup l).filter p = l := by
  have main : ∀ (n : ℕ) (l : List Char), l.length ≤ n →
      (∀ c ∈ l, p c = true) → (commaGroup l).filter p = l := by
    intro n
    induction n with
    | zero =>
        intro l hl _
        rw [List.length_eq_zero.mp (Nat.le_zero.mp hl)]
        rfl
    | succ n ih =>
        intro l hl hall
        match l with
        | [] => rfl
        | [a] => simp [commaGroup, List.filter, hall a (by simp)]
        | [a, b] =>
            simp [commaGroup, List.filter, hall a (by simp), hall b (by simp)]
        | [a, b, c] =>
            simp [commaGroup, List.filter, hall a (by simp), hall b (by simp),
              hall c (by simp)]
        | a :: b :: c :: d :: rest =>
            have hlen : (d :: rest).length ≤ n := by
              simp only [List.length_cons] at hl ⊢
              omega
            have hrec := ih (d :: rest) hlen
              (fun x hx => hall x
                (List.mem_cons_of_mem a (List.mem_cons_of_mem b
                  (List.mem_cons_of_mem c hx))))
            show ((a :: b :: c :: ',' :: commaGroup (d :: rest)).filter p) = _
            simp [List.filter, hall a (by simp), hall b (by simp),
              hall c (by simp), hp, hrec]
  exact fun l => main l.length l le_rfl

theorem mem_commaGroup {c : Char} :
    ∀ l : List Char, c ∈ commaGroup l → c ∈ l ∨ c = ',' := by
  have main : ∀ (n : ℕ) (l : List Char), l.length ≤ n →
      c ∈ commaGroup l → c ∈ l ∨ c = ',' := by
    intro n
    induction n with
    | zero =>
        intro l hl hc
        rw [List.length_eq_zero.mp (Nat.le_zero.mp hl)] at hc ⊢
        exact Or.inl hc
    | succ n ih =>
        intro l hl hc
        match l with
        | [] => exact Or.inl hc
        | [a] => exact Or.inl hc
        | [a, b] => exact Or.inl hc
        | [a, b, c'] => exact Or.inl hc
        | a :: b :: c' :: d :: rest =>
            have hlen : (d :: rest).length ≤ n := by
              simp only [List.length_cons] at hl ⊢
              omega
            have hred : commaGroup (a :: b :: c' :: d :: rest) =
                a :: b :: c' :: ',' :: commaGroup (d :: rest) := rfl
            rw [hred] at hc
            simp only [List.mem_cons] at hc ⊢
            rcases hc with h | h | h | h | htail
            · tauto
            · tauto
            · tauto
            · tauto
            · rcases ih (d :: rest) hlen htail with hm | he
              · simp only [List.mem_cons] at hm
                tauto
              · tauto
  exact fun l => main l.length l le_rfl

theorem floatParseUnsigned_digits {t : List Char} (ht : t ≠ [])
    (hall : t.all isDigitC = true) :
    floatParseUnsigned t = some ((digitsVal t : ℕ) : ℚ) := by
  unfold floatParseUnsigned
  rw [all_dropWhile_eq hall, all_takeWhile_eq hall]
  have he : t.isEmpty = false := by
    cases t with
    | nil => exact absurd rfl ht
    | cons a as => rfl
  simp [he]

theorem floatParseCore_digits {t : List Char} (ht : t ≠ [])
    (hall : t.all isDigitC = true) :
    floatParseCore t = some ((digitsVal t : ℕ) : ℚ) := by
  match t with
  | [] => exact absurd rfl ht
  | c :: cs =>
      have hc : isDigitC c = true := by
        simp only [List.all_cons, Bool.and_eq_true] at hall
        exact hall.1
      have hb := isDigitC_bounds hc
      have hminus : c ≠ '-' := by
        intro he; rw [he] at hb; exact absurd hb (by decide)
      have hplus : c ≠ '+' := by
        intro he; rw [he] at hb; exact absurd hb (by decide)
      show (if c = '-' then (floatParseUnsigned cs).map (fun q => -q)
          else if c = '+' then floatParseUnsigned cs
          else floatParseUnsigned (c :: cs)) = _
      rw [if_neg hminus, if_neg hplus]
      exact floatParseUnsigned_digits ht hall

theorem floatParse_digits {t : List Char} (ht : t ≠ [])
    (hall : t.all isDigitC = true) :
    floatParse t = some ((digitsVal t : ℕ) : ℚ) := by
  unfold floatParse
  rw [pyStrip_noSpace (fun c hc =>
    isDigitC_not_space (List.all_eq_true.mp hall c hc))]
  exact floatParseCore_digits ht hall

theorem parse_money_digits {s : String} (h1 : moneyClean s ≠ [])
    (h2 : (moneyClean s).all isDigitC = true) :
    parse_money s = some ((digitsVal (moneyClean s) : ℕ) : ℚ) := by
  have he : (moneyClean s).isEmpty = false := by
    rcases hml : moneyClean s with _ | ⟨a, l⟩
    · exact absurd hml h1
    · rfl
  have hd : (moneyClean s == ['-']) = false := by
    rw [beq_eq_false_iff_ne]
    intro hc
    rw [hc] at h2
    exact absurd h2 (by decide)
  simp only [parse_money, he, hd, Bool.or_self, Bool.false_eq_true, if_false]
  exact floatParse_digits h1 h2

theorem moneyClean_formatMoney (n : ℕ) :
    moneyClean (formatMoney n) = natDigitsChars n := by
  have hmem : ∀ c ∈ (commaGroup (natDigitsChars n).reverse).reverse,
      c ∈ natDigitsChars n ∨ c = ',' := by
    intro c hc
    rw [List.mem_reverse] at hc
    rcases mem_commaGroup _ hc with hm | he
    · exact Or.inl (List.mem_reverse.mp hm)
    · exact Or.inr he
  have hdig : ∀ c ∈ natDigitsChars n, isDigitC c = true :=
    List.all_eq_true.mp (natDigitsChars_all n)
  unfold moneyClean formatMoney
  rw [pyStrip_noSpace]
  · rw [List.filter_cons, show (decide ('$' ≠ '$') && decide ('$' ≠ ',')) = false
      from by decide]
    simp only [Bool.false_eq_true, if_false]
    rw [List.filter_reverse, commaGroup_filter (by decide)]
    · exact List.reverse_reverse _
    · intro c hc
      have h := hdig c (List.mem_reverse.mp hc)
      have hs := isDigitC_ne_sep h
      simp [hs.1, hs.2]
  · intro c hc
    rcases List.mem_cons.mp hc with rfl | htail
    · decide
    · rcases hmem c htail with hm | he
      · exact isDigitC_not_space (hdig c hm)
      · rw [he]; decide

theorem parse_money_formatMoney (n : ℕ) :
    parse_money (formatMoney n) = some ((n : ℕ) : ℚ) := by
  have h := parse_money_digits (s := formatMoney n)
  rw [moneyClean_formatMoney] at h
  rw [h (natDigitsChars_ne_nil n) (natDigitsChars_all n),
    digitsVal_natDigitsChars]

/-- Claim C7: for every valid dollars-and-commas money string (cleaned
text a nonempty digit string), `_parse_money` returns the exact integer
value with the separators stripped, and re-rendering that value as a money
string parses back to it (round-trip).  The idealisation: the Python code
stores the value in an IEEE double, which coincides with the exact integer
for all values below 2 to the 53rd, far above any daily gross. -/
theorem c7_money_exact (s : String) (h1 : moneyClean s ≠ [])
    (h2 : (moneyClean s).all isDigitC = true) :
    parse_money s = some ((digitsVal (moneyClean s) : ℕ) : ℚ) ∧
    parse_money (formatMoney (digitsVal (moneyClean s))) =
      some ((digitsVal (moneyClean s) : ℕ) : ℚ) :=
  ⟨parse_money_digits h1 h2, parse_money_formatMoney _⟩

/-- Witness for C7 at the concrete input string of one million two hundred
thirty-four thousand five hundred sixty-seven dollars. -/
theorem c7_witness :
    parse_money "$1,234,567" = some ((1234567 : ℕ) : ℚ) ∧
    parse_money (formatMoney 1234567) = some ((1234567 : ℕ) : ℚ) := by
  have h := c7_money_exact "$1,234,567" (by decide) (by decide)
  have e : digitsVal (moneyClean "$1,234,567") = 1234567 := by decide
  rw [e] at h
  exact h

theorem windowB_iff {rel : ℤ} {r : DailyRec} :
    windowB rel r = true ↔ rel ≤ r.date ∧ r.date ≤ rel + 6 := by
  simp only [windowB, Bool.and_eq_true, decide_eq_true_eq]
  omega

/-- Counterexample to claim C2: `aggregate_daily_features` applies no
release-date window at all.  With release date 0, a single record dated
7 (release_date plus 7 days) whose title matches is kept by the matching
step and aggregated into a feature row tracking one day, instead of being
excluded. -/
theorem c2_counterexample :
    aggDailyMovieData [mkRec 7 "test movie" Option.none (some 100) (some 2000)]
        "Test Movie" PyArg.none =
      Except.ok [mkRec 7 "test movie" Option.none (some 100) (some 2000)] ∧
    (aggregate_daily_features
        [mkRec 7 "test movie" Option.none (some 100) (some 2000)]
        "Test Movie" PyArg.none).map
      (fun o => o.map (fun f => f.daily_days_tracked)) =
      Except.ok (some 1) :=
  ⟨rfl, rfl⟩

/-- Claim C2 as amended: in `aggregate_movie_features` the first-week
record set is exactly the matched records dated within
`[release_date, release_date + 6]`, both ends inclusive (so a record at
release_date plus 6 is in and one at release_date plus 7 is out); but
`aggregate_daily_features` windows nothing — its matched record set is
constrained only by the title, not by any date. -/
theorem c2_window_amended :
    (∀ (batch : List DailyRec) (m : Movie) (r : DailyRec),
        r ∈ firstWeekOf batch m ↔
          r ∈ matchedBatch batch m.title ∧
            m.release_date ≤ r.date ∧ r.date ≤ m.release_date + 6)
    ∧ (∀ (data : List DailyRec) (title : String) (r : DailyRec),
        r ∈ titleMatchedFull data title ↔
          r ∈ data ∧ strContainsCI r.release title = true) := by
  constructor
  · intro batch m r
    unfold firstWeekOf
    rw [List.mem_filter, mem_sortByDate, windowB_iff]
  · intro data title r
    simp [titleMatchedFull, List.mem_filter]

/-- Claim C3: a movie with no records left after matching and windowing
yields no feature row at all — `aggregate_movie_features` emits exactly
the rows of movies for which `featureRowForMovie` succeeds, and
`aggregate_daily_features` returns `None` when nothing matched. -/
theorem c3_no_row_when_empty :
    (∀ (batch : List DailyRec) (m : Movie),
        firstWeekOf batch m = [] → featureRowForMovie batch m = Option.none)
    ∧ (∀ (batch : List DailyRec) (movies : List Movie) (row : FeatureRow),
        row ∈ aggregate_movie_features batch movies ↔
          ∃ m, m ∈ movies ∧ featureRowForMovie batch m = some row)
    ∧ (∀ (data : List DailyRec) (title : String) (u : PyArg),
        aggDailyMovieData data title u = Except.ok [] →
          aggregate_daily_features data title u = Except.ok Option.none) := by
  refine ⟨?_, ?_, ?_⟩
  · intro batch m h
    rcases hb : m.bom_url with _ | u
    · simp [featureRowForMovie, hb]
    · simp [featureRowForMovie, hb, h]
  · intro batch movies row
    simp [aggregate_movie_features, List.mem_filterMap]
  · intro data title u h
    unfold aggregate_daily_features
    rw [h]
    rfl

/-- Witness for C3: a movie with a known URL but an empty batch produces
no row, and an unmatched title gives `None` in the enrichment aggregator. -/
theorem c3_witness :
    featureRowForMovie []
        { tmdb_id := 1, title := "x", release_date := 0, bom_url := some "u" } =
      Option.none ∧
    aggregate_daily_features [] "x" PyArg.none = Except.ok Option.none :=
  ⟨c3_no_row_when_empty.1 [] _ rfl, c3_no_row_when_empty.2.2 [] "x" PyArg.none rfl⟩

/-- Counterexample to claim C5: `aggregate_movie_features` matches on the
first 20 characters of the title only.  A 25-character target title is
matched against a record whose release cell holds just those first 20
characters, which does not contain the full title. -/
theorem c5_counterexample :
    matchedBatch
        [mkRec 0 "abcdefghijklmnopqrst!" Option.none Option.none Option.none]
        "ABCDEFGHIJKLMNOPQRSTUVWXY" =
      [mkRec 0 "abcdefghijklmnopqrst!" Option.none Option.none Option.none] ∧
    strContainsCI "abcdefghijklmnopqrst!" "ABCDEFGHIJKLMNOPQRSTUVWXY" = false :=
  ⟨rfl, rfl⟩

/-- Claim C5 as amended: `aggregate_movie_features` selects exactly the
records whose release cell contains the first 20 characters of the target
title as a case-insensitive substring, while `aggregate_daily_features`
(title fallback) uses the full title; for titles of at most 20 characters
the two coincide. -/
theorem c5_match_amended :
    (∀ (batch : List DailyRec) (title : String) (r : DailyRec),
        r ∈ matchedBatch batch title ↔
          r ∈ batch ∧
            strContainsCI r.release (String.mk (title.data.take 20)) = true)
    ∧ (∀ (data : List DailyRec) (title : String) (r : DailyRec),
        r ∈ titleMatchedFull data title ↔
          r ∈ data ∧ strContainsCI r.release title = true)
    ∧ (∀ (batch : List DailyRec) (title : String), title.data.length ≤ 20 →
        matchedBatch batch title = titleMatchedFull batch title) := by
  refine ⟨?_, ?_, ?_⟩
  · intro batch title r
    simp [matchedBatch, List.mem_filter]
  · intro data title r
    simp [titleMatchedFull, List.mem_filter]
  · intro batch title h
    rcases title with ⟨l⟩
    unfold matchedBatch titleMatchedFull
    rw [show (String.mk l).data = l from rfl, List.take_of_length_le h]

/-- Witness for the short-title conjunct of C5 at a two-character title. -/
theorem c5_witness :
    matchedBatch [mkRec 0 "up and away" Option.none Option.none Option.none] "Up" =
      titleMatchedFull [mkRec 0 "up and away" Option.none Option.none Option.none] "Up" :=
  c5_match_amended.2.2 _ "Up" (by decide)

/-- Counterexample to claim C6: `aggregate_movie_features` never matches
by URL.  A record whose `movie_url` equals the movie's known `bom_url`,
dated inside the first-week window, is still dropped because its title
cell does not contain the (truncated) target title — the movie yields no
row at all. -/
theorem c6_counterexample :
    (mkRec 0 "Completely Different" (some "u1") Option.none Option.none).movie_url =
      ({ tmdb_id := 1, title := "Zztop", release_date := 0,
         bom_url := some "u1" } : Movie).bom_url ∧
    windowB 0 (mkRec 0 "Completely Different" (some "u1") Option.none Option.none) = true ∧
    featureRowForMovie
        [mkRec 0 "Completely Different" (some "u1") Option.none Option.none]
        { tmdb_id := 1, title := "Zztop", release_date := 0, bom_url := some "u1" } =
      Option.none :=
  ⟨rfl, rfl, rfl⟩

/-- Claim C6 as amended: in `aggregate_daily_features`, whenever a
non-empty canonical URL is passed, exact URL equality is tried first and
title-substring matching is used only when the URL matched nothing; in
`aggregate_movie_features` the URL value plays no role whatsoever — the
result is unchanged under replacing one URL by any other, and `bom_url`
only gates participation. -/
theorem c6_url_precedence_amended :
    (∀ (data : List DailyRec) (title : String) (u : String), u ≠ "" →
        aggDailyMovieData data title (PyArg.str u) =
          Except.ok (if (urlMatched data u).isEmpty then titleMatchedFull data title
            else urlMatched data u))
    ∧ (∀ (batch : List DailyRec) (m : Movie) (u₁ u₂ : String),
        featureRowForMovie batch { m with bom_url := some u₁ } =
          featureRowForMovie batch { m with bom_url := some u₂ }) := by
  constructor
  · intro data title u hu
    have ht : pyTruthy (PyArg.str u) = true := by simp [pyTruthy, hu]
    simp only [aggDailyMovieData, ht, pyNotna, Bool.and_self, if_true, argStr]
    have hne : (PyArg.str u == PyArg.none) = false := rfl
    rw [hne]
    simp only [Bool.false_eq_true, if_false]
    split
    · rfl
    · rfl
  · intro batch m u₁ u₂
    rfl

/-- Witness for the URL-precedence conjunct of C6: a record carrying the
movie's URL is selected even though its title is unrelated. -/
theorem c6_witness :
    aggDailyMovieData [mkRec 0 "alpha" (some "u1") Option.none Option.none]
        "beta" (PyArg.str "u1") =
      Except.ok [mkRec 0 "alpha" (some "u1") Option.none Option.none] := by
  rw [c6_url_precedence_amended.1 _ "beta" "u1" (by decide)]
  rfl

/-- Claim C10: calling `aggregate_daily_features` with a `movie_url` that
is a missing value other than the `None` object (a pandas NaN float, as a
null `bom_url` cell produces) raises `UnboundLocalError`: the URL branch
is skipped because `pd.notna` is false, yet the fallback condition reads
the never-assigned local `movie_data` because `movie_url is None` is also
false. -/
theorem c10_nan_url_unbound_local :
    ∀ (data : List DailyRec) (title : String),
      aggregate_daily_features data title PyArg.nan =
        Except.error PyErr.unboundLocal := by
  intro data title
  rfl

theorem combine_first_idem (n o : Option ℚ) :
    combine_first n (combine_first n o) = combine_first n o := by
  cases n <;> rfl

theorem applyUpdates_not_mem (newTbl : String → String → Option ℚ) :
    ∀ (cs : List String) (tbl : String → String → Option ℚ) (c k : String),
      c ∉ cs → applyUpdates newTbl cs tbl c k = tbl c k := by
  intro cs
  induction cs with
  | nil => intro tbl c k _; rfl
  | cons c₀ cs ih =>
      intro tbl c k hc
      show applyUpdates newTbl cs _ c k = _
      rw [ih _ c k (fun h => hc (List.mem_cons_of_mem _ h))]
      exact if_neg (fun h => hc (by rw [h]; exact List.mem_cons_self _ _))

theorem applyUpdates_mem (newTbl : String → String → Option ℚ) :
    ∀ (cs : List String) (tbl : String → String → Option ℚ) (c k : String),
      c ∈ cs →
      applyUpdates newTbl cs tbl c k = combine_first (newTbl c k) (tbl c k) := by
  intro cs
  induction cs with
  | nil => intro tbl c k hc; exact absurd hc (List.not_mem_nil c)
  | cons c₀ cs ih =>
      intro tbl c k hc
      show applyUpdates newTbl cs _ c k = _
      by_cases hmem : c ∈ cs
      · rw [ih _ c k hmem]
        by_cases he : c = c₀
        · rw [if_pos he]
          exact combine_first_idem _ _
        · rw [if_neg he]
      · have he : c = c₀ := ((List.mem_cons.mp hc).resolve_right hmem)
        rw [applyUpdates_not_mem newTbl cs _ c k hmem, if_pos he]

/-- Claim C4: the dataset merge is a coalesce, not an overwrite.  For
every column in the update list and every row key: a non-null existing
value survives a null incoming value; a null existing value adopts a
non-null incoming value; and when both are non-null the incoming (newer)
value wins. -/
theorem c4_merge_coalesce (cols : List String)
    (oldTbl newTbl : String → String → Option ℚ)
    (c k : String) (hc : c ∈ cols) :
    (∀ v, oldTbl c k = some v → newTbl c k = Option.none →
        applyUpdates newTbl cols oldTbl c k = some v)
    ∧ (oldTbl c k = Option.none →
        applyUpdates newTbl cols oldTbl c k = newTbl c k)
    ∧ (∀ v w, oldTbl c k = some v → newTbl c k = some w →
        applyUpdates newTbl cols oldTbl c k = some w) := by
  have h := applyUpdates_mem newTbl cols oldTbl c k hc
  refine ⟨?_, ?_, ?_⟩
  · intro v hov hnn
    rw [h, hnn, hov]
    rfl
  · intro hon
    rw [h, hon]
    cases newTbl c k <;> rfl
  · intro v w hov hnw
    rw [h, hnw]
    rfl

/-- Witness for C4 in the preserved-value case: one update column, an
existing value of five and a null incoming value. -/
theorem c4_witness :
    applyUpdates (fun _ _ => (Option.none : Option ℚ)) ["first_week_gross"]
      (fun _ _ => some (5 : ℚ)) "first_week_gross" "Avatar" = some (5 : ℚ) :=
  (c4_merge_coalesce ["first_week_gross"] (fun _ _ => some (5 : ℚ))
    (fun _ _ => (Option.none : Option ℚ)) "first_week_gross" "Avatar"
    (List.mem_singleton.mpr rfl)).1 5 rfl rfl

/-- Claim C8: `scrape_daily_data` never lets an exception past its
boundary: a raised request, an HTTP error status, a missing table and a
table with no parseable rows all come back as `None`; and the date loop
of the callers treats a `None` day as routine, contributing nothing and
continuing with the remaining dates. -/
theorem c8_fetch_failure_null :
    (∀ d : ℤ, scrape_daily_data d FetchResult.exc = Option.none)
    ∧ (∀ (d : ℤ) (tbl : Option (List TableRow)),
        scrape_daily_data d (FetchResult.resp true tbl) = Option.none)
    ∧ (∀ (d : ℤ) (b : Bool),
        scrape_daily_data d (FetchResult.resp b Option.none) = Option.none)
    ∧ (∀ (d : ℤ) (b : Bool) (n : ℕ),
        scrape_daily_data d
          (FetchResult.resp b (some (List.replicate n TableRow.short))) =
          Option.none)
    ∧ (∀ (oracle : ℤ → Option (List DailyRec)) (d : ℤ) (ds : List ℤ),
        oracle d = Option.none →
          (collectLoop oracle (d :: ds)).1 = (collectLoop oracle ds).1) := by
  refine ⟨fun d => rfl, fun d tbl => rfl, ?_, ?_, ?_⟩
  · intro d b
    cases b <;> rfl
  · intro d b n
    have hf : List.filterMap (rowToRec d) (List.replicate n TableRow.short) = [] := by
      induction n with
      | zero => rfl
      | succ n ih => simp [List.replicate_succ, List.filterMap_cons, ih, rowToRec]
    cases b
    · simp [scrape_daily_data, hf]
    · rfl
  · intro oracle d ds h
    simp [collectLoop, h]

/-- Witness for the routine-absence conjunct of C8: an oracle with no
data for day zero contributes nothing to the loop. -/
theorem c8_witness :
    (collectLoop (fun _ => Option.none) [(0 : ℤ)]).1 =
      (collectLoop (fun _ => Option.none) ([] : List ℤ)).1 :=
  c8_fetch_failure_null.2.2.2.2 (fun _ => Option.none) 0 [] rfl

theorem collectLoop_data (oracle : ℤ → Option (List DailyRec)) :
    ∀ dates : List ℤ, (collectLoop oracle dates).1 = dates.filterMap oracle := by
  intro dates
  induction dates with
  | nil => rfl
  | cons d ds ih =>
      cases h : oracle d <;> simp [collectLoop, h, List.filterMap_cons, ih]

theorem collectLoop_trace (oracle : ℤ → Option (List DailyRec)) :
    ∀ dates : List ℤ, (collectLoop oracle dates).2 = dates.map Ev.fetch := by
  intro dates
  induction dates with
  | nil => rfl
  | cons d ds ih =>
      cases h : oracle d <;> simp [collectLoop, h, ih]

/-- Counterexample to claim C9: a concrete two-date run in which both
fetches succeed produces exactly one save event, placed after the final
fetch — no persistence happens before the run completes (interrupting
after the first date would lose its data), and both dates are fetched
unconditionally (the function carries no record of past successes to
skip). -/
theorem c9_counterexample :
    (collectYearBatchTrace
        (fun d => if d = 0 then some [mkRec 0 "a" Option.none Option.none Option.none]
          else some [mkRec 14 "b" Option.none Option.none Option.none])
        [0, 14]).1 =
      [Ev.fetch 0, Ev.fetch 14,
        Ev.save [mkRec 0 "a" Option.none Option.none Option.none,
          mkRec 14 "b" Option.none Option.none Option.none]] ∧
    ((collectYearBatchTrace
        (fun d => if d = 0 then some [mkRec 0 "a" Option.none Option.none Option.none]
          else some [mkRec 14 "b" Option.none Option.none Option.none])
        [0, 14]).1.dropLast.filter isSaveEv) = [] :=
  ⟨rfl, rfl⟩

/-- Claim C9 as amended: the date-range batch collectors neither
checkpoint incrementally nor skip previously fetched dates.
`collect_year_batch` fetches every selected date unconditionally and
writes the combined batch exactly once, after the last fetch (and not at
all when no date produced data); `scrape_date_range` fetches every
selected date and persists nothing itself. -/
theorem c9_checkpoint_amended :
    (∀ (oracle : ℤ → Option (List DailyRec)) (dates : List ℤ),
        (collectYearBatchTrace oracle dates).1 =
          dates.map Ev.fetch ++
            (if (dates.filterMap oracle).isEmpty then []
             else [Ev.save (dates.filterMap oracle).flatten]))
    ∧ (∀ (oracle : ℤ → Option (List DailyRec)) (start endD : ℤ)
        (maxDays : Option ℕ),
        (scrape_date_range oracle start endD maxDays).1 =
          (selectedDates start endD maxDays).map Ev.fetch) := by
  constructor
  · intro oracle dates
    unfold collectYearBatchTrace
    rw [collectLoop_data, collectLoop_trace]
    by_cases hP : (List.filterMap oracle dates).isEmpty = true
    · simp [hP]
    · simp [hP]
  · intro oracle s e m
    unfold scrape_date_range
    rw [collectLoop_trace]

end MLProj
